import Mathlib

/-!
Shallow embedding of `postprocess_qa_predictions` from `src/ADL_HW1/QA.py`
(lines 32-277).  Logits are modelled as exact integers (the source adds, subtracts and compares float logits; any linearly ordered ring models that, and integers keep every definition kernel-evaluable); the numerically
stable softmax of the source (lines 204-206) is modelled over the reals in
`softmaxProbs`.  Python exceptions are modelled by `Except QAError`; the
Python local variable `null_score`, which is assigned inside the example
loop only when `version_2_with_negative` holds and the example has at
least one feature (line 169) and therefore leaks across loop iterations,
is threaded explicitly as the `nullVar` field of the fold state.
-/

namespace QA

/-- One entry of `examples`: its `id` and its `relevant` index into the
context list (line 184 of the source). -/
structure Example where
  id : String
  relevant : Nat
deriving DecidableEq, Repr

/-- One entry of `features`: the owning example id, the per-token
`offset_mapping` (`none` for tokens outside the context), and the
optional `token_is_max_context` table keyed by token position. -/
structure Feature where
  example_id : String
  offset_mapping : List (Option (Nat × Nat))
  token_is_max_context : Option (List (Nat × Bool))
deriving DecidableEq, Repr

/-- A preliminary candidate (lines 158-165 and 127-132): character
offsets, score, and the two logits. -/
structure Prelim where
  offsets : Nat × Nat
  score : ℤ
  start_logit : ℤ
  end_logit : ℤ
deriving DecidableEq, Repr

/-- A candidate after text resolution (line 193): the `score` field holds
the raw score that line 204 pops for the softmax. -/
structure Pred where
  text : String
  start_logit : ℤ
  end_logit : ℤ
  score : ℤ
deriving DecidableEq, Repr

/-- The ways the source function can raise: line 82 (`predictions` not a
pair), line 86 (logits/features count mismatch), line 92 (a feature whose
`example_id` is not among the examples, a Python `KeyError`), line 184
(`relevant` out of range of `context_list`, an `IndexError`), line 221
(the best-non-null scan runs past the end of the list, an `IndexError`),
and line 226 (`null_score` never assigned, a Python `NameError`). -/
inductive QAError where
  | badPredictions
  | shapeMismatch
  | unknownExampleId
  | contextIndexOutOfBounds
  | scanOutOfBounds
  | nullScoreUnbound
deriving DecidableEq, Repr

/-- The keyword arguments of the source function that the algorithm
reads (lines 37-40). -/
structure Config where
  version_2_with_negative : Bool := false
  n_best_size : Nat := 20
  max_answer_length : Nat := 30
  null_score_diff_threshold : ℤ := 0
deriving DecidableEq, Repr

/-- Decidable equality for `Except` results, so concrete runs of the
embedding can be settled by `decide`. -/
instance instDecEqExcept {e a : Type} [DecidableEq e] [DecidableEq a] :
    DecidableEq (Except e a) := fun x y =>
  match x, y with
  | .ok v, .ok w => if h : v = w then .isTrue (by rw [h]) else .isFalse (by simp [h])
  | .error v, .error w => if h : v = w then .isTrue (by rw [h]) else .isFalse (by simp [h])
  | .ok _, .error _ => .isFalse (by simp)
  | .error _, .ok _ => .isFalse (by simp)

def defaultExample : Example := ⟨"", 0⟩

def defaultFeature : Feature := ⟨"", [], none⟩

def defaultPred : Pred := ⟨"", 0, 0, 0⟩

/-- Python slicing `s[a:b]` on a string (line 193): clamped, empty when
`b ≤ a`. -/
def pySlice (s : String) (a b : Nat) : String :=
  ((s.toList.drop a).take (b - a)).asString

/-- Lookup in the `token_is_max_context` table with default `False`
(line 155: `token_is_max_context.get(str(start_index), False)`). -/
def lookupBool (m : List (Nat × Bool)) (k : Nat) : Bool :=
  ((m.find? (fun p => p.1 == k)).map (fun p => p.2)).getD false

/-- The `token_is_max_context` filter of line 155. -/
def tokenMaxOk (f : Feature) (si : Nat) : Bool :=
  match f.token_is_max_context with
  | none => true
  | some m => lookupBool m si

/-- Insert an index into a list of indices already sorted by logit value
descending, keeping earlier indices before equal-valued later ones, so
that the overall sort is the stable descending argsort of lines 135-136. -/
def insertIdxDesc (v : List ℤ) (i : Nat) : List Nat → List Nat
  | [] => [i]
  | j :: js =>
    if v.getD i 0 < v.getD j 0 then j :: insertIdxDesc v i js
    else i :: j :: js

/-- `np.argsort(v)[-1 : -n - 1 : -1].tolist()` of lines 135-136: the `n`
indices of largest value, value-descending, ties by ascending index. -/
def topIndices (v : List ℤ) (n : Nat) : List Nat :=
  ((List.range v.length).foldr (insertIdxDesc v) []).take n

/-- The body of the filter of lines 137-165 for one `(start, end)` index
pair: `none` when the pair is discarded, otherwise the candidate. -/
def spanCandidate (maxLen : Nat) (f : Feature) (s e : List ℤ)
    (si ei : Nat) : Option Prelim :=
  if si ≥ f.offset_mapping.length ∨ ei ≥ f.offset_mapping.length then none
  else
    match f.offset_mapping.getD si none, f.offset_mapping.getD ei none with
    | some os, some oe =>
      if ei < si ∨ ei - si + 1 > maxLen then none
      else if tokenMaxOk f si then
        some ⟨(os.1, oe.2), s.getD si 0 + e.getD ei 0, s.getD si 0, e.getD ei 0⟩
      else none
    | _, _ => none

/-- All candidates one feature contributes (lines 134-165), in the order
the two nested loops of lines 137-138 produce them. -/
def candidatesOfFeature (nBest maxLen : Nat) (f : Feature)
    (s e : List ℤ) : List Prelim :=
  (topIndices s nBest).foldl
    (fun acc si =>
      acc ++ (topIndices e nBest).filterMap (spanCandidate maxLen f s e si))
    []

/-- The null score of one feature (line 125):
`start_logits[0] + end_logits[0]`. -/
def nullScoreAt (sL eL : List (List ℤ)) (i : Nat) : ℤ :=
  (sL.getD i []).headD 0 + (eL.getD i []).headD 0

/-- One update of the minimum null prediction (lines 124-132): replace
on strict decrease of the feature null score. -/
def minNullStep (sL eL : List (List ℤ)) (mn : Option Prelim) (i : Nat) :
    Option Prelim :=
  let s0 := (sL.getD i []).headD 0
  let e0 := (eL.getD i []).headD 0
  let fns := s0 + e0
  match mn with
  | none => some ⟨(0, 0), fns, s0, e0⟩
  | some m => if m.score > fns then some ⟨(0, 0), fns, s0, e0⟩ else some m

/-- The minimum null prediction of lines 124-132, folded over the
feature indices of the example. -/
def minNullOf (sL eL : List (List ℤ)) (fidx : List Nat) : Option Prelim :=
  fidx.foldl (minNullStep sL eL) none

/-- Insert into a score-descending list after all strictly greater and
equal scores, so the overall sort is the stable descending sort of
line 172. -/
def insertPredDesc (p : Prelim) : List Prelim → List Prelim
  | [] => [p]
  | q :: qs =>
    if p.score < q.score then q :: insertPredDesc p qs
    else p :: q :: qs

/-- `sorted(prelim_predictions, key=score, reverse=True)` of line 172. -/
def sortPredsDesc (l : List Prelim) : List Prelim :=
  l.foldr insertPredDesc []

/-- Lines 110-168: the preliminary candidate pool of one example, with
the minimum null prediction appended when `version_2_with_negative`
holds and the example has at least one feature (lines 166-168). -/
def prelimOf (cfg : Config) (features : List Feature)
    (sL eL : List (List ℤ)) (fidx : List Nat) : List Prelim :=
  let base := fidx.foldl
    (fun acc i =>
      acc ++ candidatesOfFeature cfg.n_best_size cfg.max_answer_length
        (features.getD i defaultFeature) (sL.getD i []) (eL.getD i []))
    []
  match (if cfg.version_2_with_negative then minNullOf sL eL fidx else none) with
  | some mn => base ++ [mn]
  | none => base

/-- Lines 171-180: sort, truncate to `n_best_size`, and in null-answer
mode append the minimum null prediction back when no kept candidate has
offsets `(0, 0)`. -/
def keptPredictions (cfg : Config) (features : List Feature)
    (sL eL : List (List ℤ)) (fidx : List Nat) : List Prelim :=
  let sorted := (sortPredsDesc (prelimOf cfg features sL eL fidx)).take cfg.n_best_size
  if cfg.version_2_with_negative then
    match minNullOf sL eL fidx with
    | some mn =>
      if sorted.any (fun p => decide (p.offsets = (0, 0))) then sorted
      else sorted ++ [mn]
    | none => sorted
  else sorted

/-- Line 193: resolve the candidate text by slicing the context. -/
def toPred (context : String) (p : Prelim) : Pred :=
  ⟨pySlice context p.offsets.1 p.offsets.2, p.start_logit, p.end_logit, p.score⟩

/-- The synthetic placeholder of line 198. -/
def placeholderPred : Pred := ⟨"empty", 0, 0, 0⟩

/-- Lines 195-198: the degenerate-result guard. -/
def theGuard (l : List Pred) : List Pred :=
  if l.length = 0 ∨ (l.length = 1 ∧ (l.headD defaultPred).text = "") then
    placeholderPred :: l
  else l

/-- Lines 171-198 combined: the candidate list of one example as it
stands right before the softmax of line 204, which is also the list the
n-best output of lines 235-238 records. -/
def resolvedPredictions (cfg : Config) (features : List Feature)
    (sL eL : List (List ℤ)) (fidx : List Nat) (context : String) : List Pred :=
  theGuard ((keptPredictions cfg features sL eL fidx).map (toPred context))

/-- The while loop of lines 220-222: the index of the first candidate
with non-empty text, `none` when the loop would run past the end. -/
def scanFirstNonEmpty : List Pred → Option Nat
  | [] => none
  | p :: ps =>
    if p.text = "" then (scanFirstNonEmpty ps).map (· + 1)
    else some 0

/-- The value of the Python local `null_score` after one example: set at
line 169 only in null-answer mode when the example has a feature,
otherwise left at its previous value. -/
def exampleNullVar (cfg : Config) (nsVar : Option ℤ)
    (mn : Option Prelim) : Option ℤ :=
  if cfg.version_2_with_negative then
    match mn with
    | some m => some m.score
    | none => nsVar
  else nsVar

/-- The per-example result: the final answer of lines 215-232, the
n-best list of lines 235-238, and the score difference of line 226
(`some` exactly on the null-answer path). -/
structure ExampleOut where
  answer : String
  nbest : List Pred
  scoreDiff : Option ℤ
deriving DecidableEq, Repr

/-- The body of the example loop of lines 105-238 for one example. -/
def processExample (cfg : Config) (features : List Feature)
    (sL eL : List (List ℤ)) (contextList : List String)
    (nsVar : Option ℤ) (ex : Example) (fidx : List Nat) :
    Except QAError (ExampleOut × Option ℤ) :=
  let mn := minNullOf sL eL fidx
  let nsVar2 := exampleNullVar cfg nsVar mn
  if ex.relevant < contextList.length then
    let context := contextList.getD ex.relevant ""
    let preds := resolvedPredictions cfg features sL eL fidx context
    if cfg.version_2_with_negative then
      match scanFirstNonEmpty preds with
      | none => .error .scanOutOfBounds
      | some i =>
        match nsVar2 with
        | none => .error .nullScoreUnbound
        | some ns =>
          let bnn := preds.getD i defaultPred
          let d := ns - bnn.start_logit - bnn.end_logit
          .ok (⟨if d > cfg.null_score_diff_threshold then "" else bnn.text,
                preds, some d⟩, nsVar2)
    else
      .ok (⟨(preds.headD defaultPred).text, preds, none⟩, nsVar2)
  else .error .contextIndexOutOfBounds

/-- The dict comprehension of line 89: maps an id to the index of its
last occurrence among the examples. -/
def exampleIdIndex (examples : List Example) (k : String) : Option Nat :=
  (List.range examples.length).foldl
    (fun acc i => if (examples.getD i defaultExample).id = k then some i else acc)
    none

/-- The defaultdict grouping of lines 90-92: the indices, in order, of
the features whose `example_id` resolves to the given example index. -/
def featureIndicesFor (examples : List Example) (features : List Feature)
    (exIdx : Nat) : List Nat :=
  (List.range features.length).filter
    (fun i =>
      decide (exampleIdIndex examples (features.getD i defaultFeature).example_id
        = some exIdx))

/-- Assignment `d[k] = v` on an insertion-ordered dict: overwrite in
place when the key exists, append otherwise. -/
def dictInsert {α : Type} (d : List (String × α)) (k : String) (v : α) :
    List (String × α) :=
  if d.any (fun p => p.1 == k) then
    d.map (fun p => if p.1 == k then (k, v) else p)
  else d ++ [(k, v)]

/-- The three ordered dicts of lines 95-98 plus the leaking Python local
`null_score`. -/
structure QAState where
  all_predictions : List (String × String)
  all_nbest : List (String × List Pred)
  scores_diff : List (String × ℤ)
  nullVar : Option ℤ
deriving DecidableEq, Repr

def initialState : QAState := ⟨[], [], [], none⟩

/-- One iteration of the example loop: run the body and record the
results under the example id (lines 227, 229, 232, 235). -/
def qaStep (cfg : Config) (features : List Feature)
    (sL eL : List (List ℤ)) (contextList : List String)
    (examples : List Example) (st : QAState) (exIdx : Nat) :
    Except QAError QAState :=
  let ex := examples.getD exIdx defaultExample
  let fidx := featureIndicesFor examples features exIdx
  match processExample cfg features sL eL contextList st.nullVar ex fidx with
  | .error err => .error err
  | .ok (out, ns) =>
    .ok { all_predictions := dictInsert st.all_predictions ex.id out.answer,
          all_nbest := dictInsert st.all_nbest ex.id out.nbest,
          scores_diff :=
            match out.scoreDiff with
            | some d => dictInsert st.scores_diff ex.id d
            | none => st.scores_diff,
          nullVar := ns }

/-- Lines 81-238: the checks of lines 81-86, the grouping `KeyError`
of line 92, and the example loop, producing the filled dictionaries. -/
def runQA (examples : List Example) (features : List Feature)
    (contextList : List String) (predictions : List (List (List ℤ)))
    (cfg : Config) : Except QAError QAState :=
  if predictions.length ≠ 2 then .error .badPredictions
  else
    let sL := predictions.getD 0 []
    let eL := predictions.getD 1 []
    if sL.length ≠ features.length then .error .shapeMismatch
    else if features.any (fun f => (exampleIdIndex examples f.example_id).isNone)
    then .error .unknownExampleId
    else
      (List.range examples.length).foldlM
        (qaStep cfg features sL eL contextList examples) initialState

/-- The whole source function: line 277 returns only `all_predictions`;
the filled n-best and score-difference dicts are not part of the return
value. -/
def postprocess_qa_predictions (examples : List Example)
    (features : List Feature) (contextList : List String)
    (predictions : List (List (List ℤ))) (cfg : Config) :
    Except QAError (List (String × String)) :=
  (runQA examples features contextList predictions cfg).map QAState.all_predictions

/-- The numerically stable softmax of lines 204-206, over the reals. -/
noncomputable def softmaxProbs (scores : List ℤ) : List ℝ :=
  let m : ℝ :=
    match scores with
    | [] => 0
    | s :: t => (t.map (fun q => (q : ℝ))).foldl max (s : ℝ)
  let ex := scores.map (fun q => Real.exp ((q : ℝ) - m))
  ex.map (fun v => v / ex.sum)

/-! Concrete inputs for the claim scenarios. -/

def cfgC4 : Config :=
  { version_2_with_negative := false, n_best_size := 20,
    max_answer_length := 1, null_score_diff_threshold := 0 }

def exC4 : List Example := [⟨"e1", 0⟩]

def featC4 : Feature := ⟨"e1", [none, some (0, 5), some (6, 11), none], none⟩

def predsC4 : List (List (List ℤ)) := [[[0, 5, 1, 0]], [[0, 1, 6, 0]]]

def cfgV2 : Config :=
  { version_2_with_negative := true, n_best_size := 20,
    max_answer_length := 30, null_score_diff_threshold := 0 }

def exC5 : List Example := [⟨"e1", 0⟩]

def featC5 : List Feature := [⟨"e1", [some (0, 0), some (0, 0)], none⟩]

def cfgC6 : Config :=
  { version_2_with_negative := true, n_best_size := 1,
    max_answer_length := 30, null_score_diff_threshold := 0 }

def featC6 : List Feature := [⟨"e1", [some (0, 0), some (0, 0)], none⟩]

def cfgC7 : Config :=
  { version_2_with_negative := false, n_best_size := 1,
    max_answer_length := 30, null_score_diff_threshold := 0 }

def featC7 : List Feature := [⟨"e1", [some (0, 0)], none⟩]

def featC8 : List Feature := [⟨"e1", [none], none⟩]

def exC10 : List Example := [⟨"e1", 0⟩]

def exC1 : List Example := [⟨"e1", 0⟩]

def featC1 : List Feature := [⟨"e1", [none, some (0, 5)], none⟩]

def predsC1 : List (List (List ℤ)) := [[[5, 1]], [[5, 2]]]

/-- C4, counterexample: on the single-feature input with offset mapping
`[None, (0,5), (6,11), None]` over context "hello world", start logits
`[0,5,1,0]`, end logits `[0,1,6,0]`, null mode off and
`max_answer_length = 1`, the final answer is "world" (span `(2,2)`,
score `1 + 6 = 7`), not "hello" (span `(1,1)`, score `5 + 1 = 6`) as the
claim states. -/
theorem c4_counterexample :
    postprocess_qa_predictions exC4 [featC4] ["hello world"] predsC4 cfgC4
      = .ok [("e1", "world")] ∧
    postprocess_qa_predictions exC4 [featC4] ["hello world"] predsC4 cfgC4
      ≠ .ok [("e1", "hello")] := by
  decide

/-- C4, amended: on that input the token span `(1,2)` is excluded because
its length 2 exceeds `max_answer_length = 1`, the span `(2,2)` survives
with score `1 + 6 = 7` beating span `(1,1)` with score `5 + 1 = 6`, and
the final answer text is "world". -/
theorem c4_max_length_one_answer :
    spanCandidate 1 featC4 [0, 5, 1, 0] [0, 1, 6, 0] 1 2 = none ∧
    spanCandidate 1 featC4 [0, 5, 1, 0] [0, 1, 6, 0] 2 2
      = some ⟨(6, 11), 7, 1, 6⟩ ∧
    spanCandidate 1 featC4 [0, 5, 1, 0] [0, 1, 6, 0] 1 1
      = some ⟨(0, 5), 6, 5, 1⟩ ∧
    postprocess_qa_predictions exC4 [featC4] ["hello world"] predsC4 cfgC4
      = .ok [("e1", "world")] := by
  decide

/-- C5, counterexample: in null-answer mode, on a feature whose offset
mapping is `[(0,0), (0,0)]`, every kept candidate resolves to empty text
while the kept list has four entries, so the degenerate guard does not
fire and the best-non-null scan of line 221 runs past the end of the
list: the out-of-bounds access is reachable. -/
theorem c5_counterexample :
    scanFirstNonEmpty
      (resolvedPredictions cfgV2 featC5 [[1, 2]] [[1, 2]] [0] "abc") = none ∧
    (resolvedPredictions cfgV2 featC5 [[1, 2]] [[1, 2]] [0] "abc").length = 4 ∧
    postprocess_qa_predictions exC5 featC5 ["abc"] [[[1, 2]], [[1, 2]]] cfgV2
      = .error .scanOutOfBounds := by
  decide

/-- C6, counterexample: with `n_best_size = 1` in null-answer mode, a
span candidate with offsets `(0,0)` and score 10 outranks the tracked
minimum null candidate (score 0), the truncation drops the null
candidate, and it is not forced back: the kept set does not contain the
tracked minimum null candidate, only the other `(0,0)`-offset span. -/
theorem c6_counterexample :
    minNullOf [[0, 5]] [[0, 5]] [0] = some ⟨(0, 0), 0, 0, 0⟩ ∧
    (⟨(0, 0), 0, 0, 0⟩ : Prelim) ∈ prelimOf cfgC6 featC6 [[0, 5]] [[0, 5]] [0] ∧
    keptPredictions cfgC6 featC6 [[0, 5]] [[0, 5]] [0]
      = [⟨(0, 0), 10, 5, 5⟩] ∧
    (⟨(0, 0), 0, 0, 0⟩ : Prelim) ∉ keptPredictions cfgC6 featC6 [[0, 5]] [[0, 5]] [0] := by
  decide

/-- C7, counterexample: with `n_best_size = 1` and null-answer mode off,
a single kept candidate with empty text triggers the degenerate guard,
and the recorded n-best list has length 2, exceeding `n_best_size = 1`
with no null candidate force-included. -/
theorem c7_counterexample :
    (resolvedPredictions cfgC7 featC7 [[1]] [[1]] [0] "abc").length = 2 ∧
    cfgC7.n_best_size = 1 ∧
    cfgC7.version_2_with_negative = false ∧
    (runQA exC5 featC7 ["abc"] [[[1]], [[1]]] cfgC7).map
      (fun st => st.all_nbest.map (fun p => p.2.length)) = .ok [2] := by
  decide

/-- C8, counterexample: in null-answer mode, on a feature whose only
token is outside the context, zero valid candidates survive filtering,
yet the final answer is the empty string (the null score 10 exceeds the
threshold 0), not the literal "empty". -/
theorem c8_counterexample :
    candidatesOfFeature 20 30 ⟨"e1", [none], none⟩ [5] [5] = [] ∧
    postprocess_qa_predictions exC5 featC8 ["abc"] [[[5]], [[5]]] cfgV2
      = .ok [("e1", "")] ∧
    ("" : String) ≠ "empty" := by
  decide

/-- C10, counterexample: in null-answer mode, a first example owning zero
features reaches line 226 with the Python local `null_score` never
assigned, so the call raises a `NameError` and the returned answer
mapping has no entry for that example at all. -/
theorem c10_counterexample :
    postprocess_qa_predictions exC10 [] ["x"] [[], []] cfgV2
      = .error .nullScoreUnbound ∧
    exC10 ≠ [] := by
  decide

/-- C1, counterexample: on a concrete null-answer-mode call the function
computes a non-empty n-best dict and a score-difference dict with one
entry per example, but its return value (line 277) is only the
answer-text mapping: the n-best and score-difference mappings are not
part of the returned results. -/
theorem c1_counterexample :
    postprocess_qa_predictions exC1 featC1 ["hello"] predsC1 cfgV2
      = .ok [("e1", "")] ∧
    (runQA exC1 featC1 ["hello"] predsC1 cfgV2).map QAState.scores_diff
      = .ok [("e1", 7)] ∧
    (runQA exC1 featC1 ["hello"] predsC1 cfgV2).map QAState.all_nbest
      ≠ .ok [] := by
  decide

/-! Universal lemmas about the per-example pipeline. -/

/-- The scan of lines 220-222 finds an in-bounds index whenever some
candidate in the list has non-empty text. -/
theorem scan_some_of_exists (l : List Pred) (h : ∃ p ∈ l, p.text ≠ "") :
    ∃ i, scanFirstNonEmpty l = some i ∧ i < l.length := by
  induction l with
  | nil => simp at h
  | cons p ps ih =>
    by_cases hp : p.text = ""
    · obtain ⟨q, hq, hne⟩ := h
      rcases List.mem_cons.mp hq with hq | hq
      · exact absurd (hq ▸ hne) (by simp [hp])
      · obtain ⟨i, hi, hlt⟩ := ih ⟨q, hq, hne⟩
        refine ⟨i + 1, ?_, ?_⟩
        · simp [scanFirstNonEmpty, hp, hi]
        · simpa using Nat.succ_lt_succ hlt
    · exact ⟨0, by simp [scanFirstNonEmpty, hp], by simp⟩

/-- C5, amended: whenever the kept candidate list of an example (after
truncation, text resolution and the degenerate-result guard) contains at
least one candidate with non-empty text, the scan for the first
candidate in rank order with non-empty text terminates at an index
inside the list; the counterexample shows the out-of-bounds access is
reachable when every kept candidate has empty text. -/
theorem c5_scan_in_bounds (cfg : Config) (features : List Feature)
    (sL eL : List (List ℤ)) (fidx : List Nat) (context : String)
    (h : ∃ p ∈ resolvedPredictions cfg features sL eL fidx context, p.text ≠ "") :
    ∃ i, scanFirstNonEmpty (resolvedPredictions cfg features sL eL fidx context)
        = some i ∧
      i < (resolvedPredictions cfg features sL eL fidx context).length :=
  scan_some_of_exists _ h

/-- Witness for C5 at a concrete input whose kept list holds the
non-empty candidate "hello". -/
theorem c5_witness :
    (∃ p ∈ resolvedPredictions cfgV2 featC1 [[5, 1]] [[5, 2]] [0] "hello",
      p.text ≠ "") ∧
    ∃ i, scanFirstNonEmpty (resolvedPredictions cfgV2 featC1 [[5, 1]] [[5, 2]] [0] "hello")
        = some i ∧
      i < (resolvedPredictions cfgV2 featC1 [[5, 1]] [[5, 2]] [0] "hello").length :=
  ⟨by decide, c5_scan_in_bounds cfgV2 featC1 [[5, 1]] [[5, 2]] [0] "hello" (by decide)⟩

theorem length_insertPredDesc (p : Prelim) (l : List Prelim) :
    (insertPredDesc p l).length = l.length + 1 := by
  induction l with
  | nil => rfl
  | cons q qs ih =>
    unfold insertPredDesc
    split
    · simp [ih]
    · simp

theorem length_sortPredsDesc (l : List Prelim) :
    (sortPredsDesc l).length = l.length := by
  induction l with
  | nil => rfl
  | cons p ps ih =>
    show (insertPredDesc p (sortPredsDesc ps)).length = ps.length + 1
    rw [length_insertPredDesc, ih]

/-- Lines 171-180 either keep the truncated sorted list as is or append
the minimum null prediction to it. -/
theorem keptPredictions_eq_or (cfg : Config) (features : List Feature)
    (sL eL : List (List ℤ)) (fidx : List Nat) :
    keptPredictions cfg features sL eL fidx
      = (sortPredsDesc (prelimOf cfg features sL eL fidx)).take cfg.n_best_size ∨
    (cfg.version_2_with_negative = true ∧ ∃ mn, minNullOf sL eL fidx = some mn ∧
      keptPredictions cfg features sL eL fidx
        = (sortPredsDesc (prelimOf cfg features sL eL fidx)).take cfg.n_best_size
            ++ [mn]) := by
  unfold keptPredictions
  by_cases hv : cfg.version_2_with_negative = true
  · simp only [hv, if_true]
    cases hmn : minNullOf sL eL fidx with
    | none => left; rfl
    | some mn =>
      by_cases hany : ((sortPredsDesc (prelimOf cfg features sL eL fidx)).take
          cfg.n_best_size).any (fun p => decide (p.offsets = (0, 0))) = true
      · left
        simp only [hany, if_true]
      · right
        exact ⟨by simp [hv], mn, rfl, by simp only [hany, if_false, Bool.false_eq_true]⟩
  · left
    simp only [Bool.not_eq_true] at hv
    simp only [hv, Bool.false_eq_true, if_false]

theorem keptPredictions_length_le (cfg : Config) (features : List Feature)
    (sL eL : List (List ℤ)) (fidx : List Nat) :
    (keptPredictions cfg features sL eL fidx).length
      ≤ cfg.n_best_size + (if cfg.version_2_with_negative then 1 else 0) := by
  have htake : ((sortPredsDesc (prelimOf cfg features sL eL fidx)).take
      cfg.n_best_size).length ≤ cfg.n_best_size := by
    simp [List.length_take]
  rcases keptPredictions_eq_or cfg features sL eL fidx with h | ⟨hv, mn, _, h⟩
  · rw [h]
    split <;> omega
  · rw [h, List.length_append, hv, if_pos rfl]
    simp only [List.length_cons, List.length_nil]
    omega

/-- C7, amended: for every example, when `n_best_size ≥ 2` the recorded
n-best candidate list has length at least 1 and at most `n_best_size`,
or at most `n_best_size + 1` in null-answer mode (where the null
candidate may be force-included); the counterexample shows the bound
fails for `n_best_size = 1` because the degenerate guard can grow a
singleton empty-text list to length 2. -/
theorem c7_nbest_length_bounds (cfg : Config) (features : List Feature)
    (sL eL : List (List ℤ)) (fidx : List Nat) (context : String)
    (h2 : 2 ≤ cfg.n_best_size) :
    1 ≤ (resolvedPredictions cfg features sL eL fidx context).length ∧
    (resolvedPredictions cfg features sL eL fidx context).length
      ≤ cfg.n_best_size + (if cfg.version_2_with_negative then 1 else 0) := by
  have hkept := keptPredictions_length_le cfg features sL eL fidx
  unfold resolvedPredictions theGuard
  split
  · rename_i hcond
    constructor
    · simp
    · rcases hcond with h0 | ⟨h1, _⟩
      · rw [List.length_cons, h0]
        omega
      · rw [List.length_cons, h1]
        split <;> omega
  · rename_i hcond
    push_neg at hcond
    constructor
    · have := hcond.1
      omega
    · simpa using hkept

/-- Witness for C7 at a concrete input with the default `n_best_size`. -/
theorem c7_witness :
    2 ≤ cfgV2.n_best_size ∧
    (1 ≤ (resolvedPredictions cfgV2 featC1 [[5, 1]] [[5, 2]] [0] "hello").length ∧
     (resolvedPredictions cfgV2 featC1 [[5, 1]] [[5, 2]] [0] "hello").length
       ≤ cfgV2.n_best_size + (if cfgV2.version_2_with_negative then 1 else 0)) :=
  ⟨by decide, c7_nbest_length_bounds cfgV2 featC1 [[5, 1]] [[5, 2]] [0] "hello" (by decide)⟩

theorem softmaxProbs_single_zero : softmaxProbs [(0 : ℤ)] = [1] := by
  simp [softmaxProbs, Real.exp_zero]

/-- C8, amended: the degenerate guard inserts the placeholder (text
"empty", all scores 0) exactly when the kept list is empty or is a
single empty-text candidate; and for every example with zero valid
candidates after filtering, when null-answer mode is disabled the
output answer text is the literal "empty" with probability 1 (the
counterexample shows that in null-answer mode the threshold comparison
can yield the empty string instead). -/
theorem c8_degenerate_guard (cfg : Config) (features : List Feature)
    (sL eL : List (List ℤ)) (contextList : List String) (nsVar : Option ℤ)
    (ex : Example) (fidx : List Nat)
    (hv : cfg.version_2_with_negative = false)
    (hzero : prelimOf cfg features sL eL fidx = [])
    (hrel : ex.relevant < contextList.length) :
    processExample cfg features sL eL contextList nsVar ex fidx
      = .ok (⟨"empty", [placeholderPred], none⟩, nsVar) ∧
    softmaxProbs ([placeholderPred].map Pred.score) = [1] := by
  have hres : resolvedPredictions cfg features sL eL fidx
      (contextList.getD ex.relevant "") = [placeholderPred] := by
    unfold resolvedPredictions keptPredictions
    rw [hzero]
    simp [sortPredsDesc, hv, theGuard]
  constructor
  · simp only [processExample, hres, exampleNullVar, hv, Bool.false_eq_true,
      if_false, if_pos hrel]
    simp [placeholderPred]
  · simpa [placeholderPred] using softmaxProbs_single_zero

/-- Witness for C8 at a concrete non-null-mode input whose only feature
token lies outside the context, so filtering leaves no candidate. -/
theorem c8_witness :
    processExample ⟨false, 20, 30, 0⟩ featC8 [[5]] [[5]] ["abc"] none ⟨"e1", 0⟩ [0]
      = .ok (⟨"empty", [placeholderPred], none⟩, none) ∧
    softmaxProbs ([placeholderPred].map Pred.score) = [1] :=
  c8_degenerate_guard ⟨false, 20, 30, 0⟩ featC8 [[5]] [[5]] ["abc"] none ⟨"e1", 0⟩ [0]
    rfl (by decide) (by decide)

theorem minNullStep_none (sL eL : List (List ℤ)) (i : Nat) :
    minNullStep sL eL none i
      = some ⟨(0, 0), nullScoreAt sL eL i,
          (sL.getD i []).headD 0, (eL.getD i []).headD 0⟩ := rfl

theorem minNullStep_some (sL eL : List (List ℤ)) (m : Prelim) (i : Nat) :
    minNullStep sL eL (some m) i
      = if nullScoreAt sL eL i < m.score
        then some ⟨(0, 0), nullScoreAt sL eL i,
              (sL.getD i []).headD 0, (eL.getD i []).headD 0⟩
        else some m := rfl

/-- Folding the minimum-null update from a `(0,0)`-offset accumulator
yields a `(0,0)`-offset record whose score is the minimum of the
accumulator score and the feature null scores, attained at one of them. -/
theorem minNull_foldl_some (sL eL : List (List ℤ)) (l : List Nat) :
    ∀ m : Prelim, m.offsets = (0, 0) →
      ∃ r, l.foldl (minNullStep sL eL) (some m) = some r ∧
        r.offsets = (0, 0) ∧
        (r.score = m.score ∨ r.score ∈ l.map (nullScoreAt sL eL)) ∧
        r.score ≤ m.score ∧
        ∀ s ∈ l.map (nullScoreAt sL eL), r.score ≤ s := by
  induction l with
  | nil =>
    intro m hm
    exact ⟨m, rfl, hm, Or.inl rfl, le_refl _, by simp⟩
  | cons i t ih =>
    intro m hm
    rw [List.foldl_cons, minNullStep_some]
    by_cases hlt : nullScoreAt sL eL i < m.score
    · rw [if_pos hlt]
      obtain ⟨r, hr, ho, hmem, hle, hall⟩ :=
        ih ⟨(0, 0), nullScoreAt sL eL i,
          (sL.getD i []).headD 0, (eL.getD i []).headD 0⟩ rfl
      refine ⟨r, hr, ho, ?_, ?_, ?_⟩
      · rcases hmem with h | h
        · right
          rw [List.map_cons, h]
          exact List.mem_cons_self _ _
        · right
          exact List.mem_cons_of_mem _ h
      · exact le_trans hle (le_of_lt hlt)
      · intro s hs
        rcases List.mem_cons.mp hs with rfl | hs2
        · exact hle
        · exact hall s hs2
    · rw [if_neg hlt]
      push_neg at hlt
      obtain ⟨r, hr, ho, hmem, hle, hall⟩ := ih m hm
      refine ⟨r, hr, ho, hmem.imp_right (List.mem_cons_of_mem _), hle, ?_⟩
      intro s hs
      rcases List.mem_cons.mp hs with rfl | hs2
      · exact le_trans hle hlt
      · exact hall s hs2

/-- On a non-empty feature-index list the tracked minimum null
prediction exists, has offsets `(0,0)`, and its score is the minimum of
the per-feature null scores. -/
theorem minNullOf_spec (sL eL : List (List ℤ)) (fidx : List Nat)
    (hne : fidx ≠ []) :
    ∃ mn, minNullOf sL eL fidx = some mn ∧
      mn.offsets = (0, 0) ∧
      mn.score ∈ fidx.map (nullScoreAt sL eL) ∧
      ∀ s ∈ fidx.map (nullScoreAt sL eL), mn.score ≤ s := by
  cases fidx with
  | nil => exact absurd rfl hne
  | cons i t =>
    unfold minNullOf
    rw [List.foldl_cons, minNullStep_none]
    obtain ⟨r, hr, ho, hmem, hle, hall⟩ :=
      minNull_foldl_some sL eL t
        ⟨(0, 0), nullScoreAt sL eL i,
          (sL.getD i []).headD 0, (eL.getD i []).headD 0⟩ rfl
    refine ⟨r, hr, ho, ?_, ?_⟩
    · rcases hmem with h | h
      · rw [List.map_cons, h]
        exact List.mem_cons_self _ _
      · exact List.mem_cons_of_mem _ h
    · intro s hs
      rcases List.mem_cons.mp hs with rfl | hs2
      · exact hle
      · exact hall s hs2

/-- In null-answer mode, when the minimum null prediction exists and has
offsets `(0,0)`, the kept set after truncation and force-back always
contains a candidate with offsets `(0,0)`. -/
theorem keptPredictions_has_null (cfg : Config) (features : List Feature)
    (sL eL : List (List ℤ)) (fidx : List Nat) (mn : Prelim)
    (hv : cfg.version_2_with_negative = true)
    (hmn : minNullOf sL eL fidx = some mn)
    (hmo : mn.offsets = (0, 0)) :
    ∃ p ∈ keptPredictions cfg features sL eL fidx, p.offsets = (0, 0) := by
  unfold keptPredictions
  simp only [hv, if_true]
  rw [hmn]
  by_cases hany : ((sortPredsDesc (prelimOf cfg features sL eL fidx)).take
      cfg.n_best_size).any (fun p => decide (p.offsets = (0, 0))) = true
  · simp only [hany, if_true]
    obtain ⟨p, hp, hdec⟩ := List.any_eq_true.mp hany
    exact ⟨p, hp, of_decide_eq_true hdec⟩
  · simp only [hany, if_false, Bool.false_eq_true]
    exact ⟨mn, List.mem_append_right _ (List.mem_singleton_self mn), hmo⟩

/-- C6, amended: in null-answer mode, for every example with at least
one feature the tracked minimum null candidate exists with offsets
`(0,0)` and score equal to the minimum over the features of
`start_logits[0] + end_logits[0]`, and the kept set after truncation
always contains a candidate with offsets `(0,0)` — that candidate is the
tracked null when no kept candidate has offsets `(0,0)`, otherwise the
tracked null may stay dropped (see the counterexample). -/
theorem c6_null_candidate_tracking (cfg : Config) (features : List Feature)
    (sL eL : List (List ℤ)) (fidx : List Nat)
    (hv : cfg.version_2_with_negative = true)
    (hne : fidx ≠ []) :
    ∃ mn, minNullOf sL eL fidx = some mn ∧
      mn.offsets = (0, 0) ∧
      mn.score ∈ fidx.map (nullScoreAt sL eL) ∧
      (∀ s ∈ fidx.map (nullScoreAt sL eL), mn.score ≤ s) ∧
      ∃ p ∈ keptPredictions cfg features sL eL fidx, p.offsets = (0, 0) := by
  obtain ⟨mn, hmn, hmo, hmem, hmin⟩ := minNullOf_spec sL eL fidx hne
  exact ⟨mn, hmn, hmo, hmem, hmin,
    keptPredictions_has_null cfg features sL eL fidx mn hv hmn hmo⟩

/-- Witness for C6 at a concrete one-feature null-mode input. -/
theorem c6_witness :
    ∃ mn, minNullOf [[5, 1]] [[5, 2]] [0] = some mn ∧
      mn.offsets = (0, 0) ∧
      mn.score ∈ [0].map (nullScoreAt [[5, 1]] [[5, 2]]) ∧
      (∀ s ∈ [0].map (nullScoreAt [[5, 1]] [[5, 2]]), mn.score ≤ s) ∧
      ∃ p ∈ keptPredictions cfgV2 featC1 [[5, 1]] [[5, 2]] [0],
        p.offsets = (0, 0) :=
  c6_null_candidate_tracking cfgV2 featC1 [[5, 1]] [[5, 2]] [0] rfl (by decide)

/-- C3: in null-answer mode, whenever the per-example body succeeds, the
best non-null candidate is the first candidate in rank order with
non-empty text, the recorded score difference equals the null score
minus that candidate's start and end logits, and the final answer is
the empty string exactly when the score difference exceeds the
threshold, otherwise that candidate's text. -/
theorem c3_null_mode_selection (cfg : Config) (features : List Feature)
    (sL eL : List (List ℤ)) (contextList : List String) (nsVar : Option ℤ)
    (ex : Example) (fidx : List Nat) (out : ExampleOut) (ns2 : Option ℤ)
    (hv : cfg.version_2_with_negative = true)
    (hok : processExample cfg features sL eL contextList nsVar ex fidx
      = .ok (out, ns2)) :
    ∃ i ns,
      scanFirstNonEmpty (resolvedPredictions cfg features sL eL fidx
        (contextList.getD ex.relevant "")) = some i ∧
      exampleNullVar cfg nsVar (minNullOf sL eL fidx) = some ns ∧
      out.scoreDiff = some (ns
        - ((resolvedPredictions cfg features sL eL fidx
            (contextList.getD ex.relevant "")).getD i defaultPred).start_logit
        - ((resolvedPredictions cfg features sL eL fidx
            (contextList.getD ex.relevant "")).getD i defaultPred).end_logit) ∧
      out.answer = (if ns
          - ((resolvedPredictions cfg features sL eL fidx
              (contextList.getD ex.relevant "")).getD i defaultPred).start_logit
          - ((resolvedPredictions cfg features sL eL fidx
              (contextList.getD ex.relevant "")).getD i defaultPred).end_logit
          > cfg.null_score_diff_threshold
        then "" else ((resolvedPredictions cfg features sL eL fidx
            (contextList.getD ex.relevant "")).getD i defaultPred).text) := by
  simp only [processExample, hv, if_true] at hok
  by_cases hrel : ex.relevant < contextList.length
  · rw [if_pos hrel] at hok
    cases hscan : scanFirstNonEmpty (resolvedPredictions cfg features sL eL fidx
        (contextList.getD ex.relevant "")) with
    | none =>
      rw [hscan] at hok
      exact absurd hok (by simp)
    | some i =>
      rw [hscan] at hok
      cases hns : exampleNullVar cfg nsVar (minNullOf sL eL fidx) with
      | none =>
        rw [hns] at hok
        exact absurd hok (by simp)
      | some ns =>
        rw [hns] at hok
        simp only [Except.ok.injEq, Prod.mk.injEq] at hok
        obtain ⟨hout, -⟩ := hok
        exact ⟨i, ns, rfl, rfl, by rw [← hout], by rw [← hout]⟩
  · rw [if_neg hrel] at hok
    exact absurd hok (by simp)

def outC3 : ExampleOut := ⟨"", [⟨"", 5, 5, 10⟩, ⟨"hello", 1, 2, 3⟩], some 7⟩

/-- Witness for C3 at the concrete scenario of the claim: null score 10,
best non-null logits summing to 3, threshold 0, so score difference 7
and the final answer is the empty string. -/
theorem c3_witness :
    (∃ i ns,
      scanFirstNonEmpty (resolvedPredictions cfgV2 featC1 [[5, 1]] [[5, 2]] [0]
        (["hello"].getD (Example.mk "e1" 0).relevant "")) = some i ∧
      exampleNullVar cfgV2 none (minNullOf [[5, 1]] [[5, 2]] [0]) = some ns ∧
      outC3.scoreDiff = some (ns
        - ((resolvedPredictions cfgV2 featC1 [[5, 1]] [[5, 2]] [0]
            (["hello"].getD (Example.mk "e1" 0).relevant "")).getD i defaultPred).start_logit
        - ((resolvedPredictions cfgV2 featC1 [[5, 1]] [[5, 2]] [0]
            (["hello"].getD (Example.mk "e1" 0).relevant "")).getD i defaultPred).end_logit) ∧
      outC3.answer = (if ns
          - ((resolvedPredictions cfgV2 featC1 [[5, 1]] [[5, 2]] [0]
              (["hello"].getD (Example.mk "e1" 0).relevant "")).getD i defaultPred).start_logit
          - ((resolvedPredictions cfgV2 featC1 [[5, 1]] [[5, 2]] [0]
              (["hello"].getD (Example.mk "e1" 0).relevant "")).getD i defaultPred).end_logit
          > cfgV2.null_score_diff_threshold
        then "" else ((resolvedPredictions cfgV2 featC1 [[5, 1]] [[5, 2]] [0]
            (["hello"].getD (Example.mk "e1" 0).relevant "")).getD i defaultPred).text)) ∧
    outC3.scoreDiff = some 7 ∧ outC3.answer = "" :=
  ⟨c3_null_mode_selection cfgV2 featC1 [[5, 1]] [[5, 2]] ["hello"] none
      (Example.mk "e1" 0) [0] outC3 (some 10) rfl (by decide),
    by decide, rfl⟩

/-! Which errors each stage of the function can raise. -/

theorem processExample_error_cases (cfg : Config) (features : List Feature)
    (sL eL : List (List ℤ)) (contextList : List String) (nsVar : Option ℤ)
    (ex : Example) (fidx : List Nat) (err : QAError)
    (h : processExample cfg features sL eL contextList nsVar ex fidx
      = .error err) :
    err = .contextIndexOutOfBounds ∨ err = .scanOutOfBounds ∨
      err = .nullScoreUnbound := by
  simp only [processExample] at h
  by_cases hrel : ex.relevant < contextList.length
  · rw [if_pos hrel] at h
    by_cases hv : cfg.version_2_with_negative = true
    · simp only [hv, if_true] at h
      cases hscan : scanFirstNonEmpty (resolvedPredictions cfg features sL eL fidx
          (contextList.getD ex.relevant "")) with
      | none =>
        rw [hscan] at h
        simp only [Except.error.injEq] at h
        exact Or.inr (Or.inl h.symm)
      | some i =>
        rw [hscan] at h
        cases hns : exampleNullVar cfg nsVar (minNullOf sL eL fidx) with
        | none =>
          rw [hns] at h
          simp only [Except.error.injEq] at h
          exact Or.inr (Or.inr h.symm)
        | some ns =>
          rw [hns] at h
          exact absurd h (by simp)
    · simp only [Bool.not_eq_true] at hv
      simp only [hv, Bool.false_eq_true, if_false] at h
      exact absurd h (by simp)
  · rw [if_neg hrel] at h
    simp only [Except.error.injEq] at h
    exact Or.inl h.symm

theorem qaStep_error_cases (cfg : Config) (features : List Feature)
    (sL eL : List (List ℤ)) (contextList : List String)
    (examples : List Example) (st : QAState) (exIdx : Nat) (err : QAError)
    (h : qaStep cfg features sL eL contextList examples st exIdx = .error err) :
    err = .contextIndexOutOfBounds ∨ err = .scanOutOfBounds ∨
      err = .nullScoreUnbound := by
  simp only [qaStep] at h
  cases hpe : processExample cfg features sL eL contextList st.nullVar
      (examples.getD exIdx defaultExample)
      (featureIndicesFor examples features exIdx) with
  | error e =>
    rw [hpe] at h
    simp only [Except.error.injEq] at h
    exact h ▸ processExample_error_cases cfg features sL eL contextList
      st.nullVar (examples.getD exIdx defaultExample)
      (featureIndicesFor examples features exIdx) e hpe
  | ok pr =>
    obtain ⟨out, ns⟩ := pr
    rw [hpe] at h
    exact absurd h (by simp)

theorem qaFold_error_cases (cfg : Config) (features : List Feature)
    (sL eL : List (List ℤ)) (contextList : List String)
    (examples : List Example) (l : List Nat) :
    ∀ (st : QAState) (err : QAError),
      l.foldlM (qaStep cfg features sL eL contextList examples) st
        = .error err →
      err = .contextIndexOutOfBounds ∨ err = .scanOutOfBounds ∨
        err = .nullScoreUnbound := by
  induction l with
  | nil =>
    intro st err h
    exact absurd h (by simp [List.foldlM, pure, Except.pure])
  | cons a t ih =>
    intro st err h
    rw [List.foldlM_cons] at h
    cases hstep : qaStep cfg features sL eL contextList examples st a with
    | error e =>
      rw [hstep] at h
      simp only [Bind.bind, Except.bind] at h
      simp only [Except.error.injEq] at h
      exact h ▸ qaStep_error_cases cfg features sL eL contextList examples
        st a e hstep
    | ok st2 =>
      rw [hstep] at h
      simp only [Bind.bind, Except.bind] at h
      exact ih st2 err h

/-- After the two argument checks pass, any error the function raises
comes from the grouping step or the example loop. -/
theorem runQA_late_errors (examples : List Example) (features : List Feature)
    (contextList : List String) (predictions : List (List (List ℤ)))
    (cfg : Config) (err : QAError)
    (h2 : predictions.length = 2)
    (hs : (predictions.getD 0 []).length = features.length)
    (h : runQA examples features contextList predictions cfg = .error err) :
    err = .unknownExampleId ∨ err = .contextIndexOutOfBounds ∨
      err = .scanOutOfBounds ∨ err = .nullScoreUnbound := by
  simp only [runQA] at h
  rw [if_neg (fun hx => hx h2)] at h
  rw [if_neg (fun hx => hx hs)] at h
  by_cases hany : features.any
      (fun f => (exampleIdIndex examples f.example_id).isNone) = true
  · simp only [hany, if_true] at h
    simp only [Except.error.injEq] at h
    exact Or.inl h.symm
  · simp only [hany, if_false, Bool.false_eq_true] at h
    exact Or.inr (qaFold_error_cases cfg features (predictions.getD 0 [])
      (predictions.getD 1 []) contextList examples
      (List.range examples.length) initialState err h)

/-- When `predictions` is a pair, any error raised is not the
bad-predictions error. -/
theorem runQA_pair_errors (examples : List Example) (features : List Feature)
    (contextList : List String) (predictions : List (List (List ℤ)))
    (cfg : Config) (err : QAError)
    (h2 : predictions.length = 2)
    (h : runQA examples features contextList predictions cfg = .error err) :
    err = .shapeMismatch ∨ err = .unknownExampleId ∨
      err = .contextIndexOutOfBounds ∨ err = .scanOutOfBounds ∨
      err = .nullScoreUnbound := by
  by_cases hs : (predictions.getD 0 []).length = features.length
  · exact Or.inr (runQA_late_errors examples features contextList predictions
      cfg err h2 hs h)
  · left
    simp only [runQA] at h
    rw [if_neg (fun hx => hx h2)] at h
    rw [if_pos hs] at h
    simp only [Except.error.injEq] at h
    exact h.symm

/-- The `Except.map` of line 277 sends errors to themselves. -/
theorem postprocess_error_iff (examples : List Example)
    (features : List Feature) (contextList : List String)
    (predictions : List (List (List ℤ))) (cfg : Config) (err : QAError) :
    postprocess_qa_predictions examples features contextList predictions cfg
        = .error err ↔
      runQA examples features contextList predictions cfg = .error err := by
  unfold postprocess_qa_predictions
  cases runQA examples features contextList predictions cfg with
  | error e => simp [Except.map]
  | ok st => simp [Except.map]

/-- C2: when the start and end logit collections have a common length,
a call with that length different from the feature count fails with the
shape-mismatch error (before any per-example processing, hence with no
partial results), and a call with equal counts never raises that
error. -/
theorem c2_shape_check (examples : List Example) (features : List Feature)
    (contextList : List String) (s e : List (List ℤ)) (cfg : Config)
    (_hlen : s.length = e.length) :
    (s.length ≠ features.length →
      postprocess_qa_predictions examples features contextList [s, e] cfg
        = .error .shapeMismatch) ∧
    (s.length = features.length →
      postprocess_qa_predictions examples features contextList [s, e] cfg
        ≠ .error .shapeMismatch) := by
  constructor
  · intro hne
    rw [postprocess_error_iff]
    simp only [runQA]
    rw [if_neg (fun hx => hx rfl)]
    have hgd : ([s, e].getD 0 []).length ≠ features.length := by simpa using hne
    rw [if_pos hgd]
  · intro heq hcontra
    rw [postprocess_error_iff] at hcontra
    rcases runQA_late_errors examples features contextList [s, e] cfg
        .shapeMismatch rfl (by simpa using heq) hcontra with h | h | h | h <;>
      exact absurd h (by simp)

/-- Witness for C2: a call with one start-logit vector and zero features
fails with the shape-mismatch error. -/
theorem c2_witness :
    postprocess_qa_predictions exC1 [] ["hello"] [[[5, 1]], [[5, 2]]] cfgV2
      = .error .shapeMismatch :=
  (c2_shape_check exC1 [] ["hello"] [[5, 1]] [[5, 2]] cfgV2 rfl).1 (by decide)

/-- C9: a call whose `predictions` argument is not a pair fails with the
bad-predictions error of line 82 regardless of every other argument
(so before the feature-count check of line 85), and a call whose
`predictions` is a pair never raises that error. -/
theorem c9_predictions_pair_check (examples : List Example)
    (features : List Feature) (contextList : List String)
    (predictions : List (List (List ℤ))) (cfg : Config) :
    (predictions.length ≠ 2 →
      postprocess_qa_predictions examples features contextList predictions cfg
        = .error .badPredictions) ∧
    (predictions.length = 2 →
      postprocess_qa_predictions examples features contextList predictions cfg
        ≠ .error .badPredictions) := by
  constructor
  · intro hne
    rw [postprocess_error_iff]
    simp only [runQA]
    rw [if_pos hne]
  · intro h2 hcontra
    rw [postprocess_error_iff] at hcontra
    rcases runQA_pair_errors examples features contextList predictions cfg
        .badPredictions h2 hcontra with h | h | h | h | h <;>
      exact absurd h (by simp)

/-- Witness for C9: a call with a one-element `predictions` tuple fails
with the bad-predictions error even though its single entry also fails
the feature-count relation. -/
theorem c9_witness :
    postprocess_qa_predictions exC1 featC1 ["hello"] [[[1]]] cfgV2
      = .error .badPredictions :=
  (c9_predictions_pair_check exC1 featC1 ["hello"] [[[1]]] cfgV2).1 (by decide)

/-! The example loop as a whole: keys and order of the output dicts. -/

/-- The candidate list recorded for example `i` (lines 235-238). -/
def exampleNbest (cfg : Config) (features : List Feature)
    (sL eL : List (List ℤ)) (contextList : List String)
    (examples : List Example) (i : Nat) : List Pred :=
  resolvedPredictions cfg features sL eL (featureIndicesFor examples features i)
    (contextList.getD (examples.getD i defaultExample).relevant "")

/-- The answer recorded for example `i` when null-answer mode is off
(line 217). -/
def exampleAnswerNonNull (cfg : Config) (features : List Feature)
    (sL eL : List (List ℤ)) (contextList : List String)
    (examples : List Example) (i : Nat) : String :=
  ((exampleNbest cfg features sL eL contextList examples i).headD defaultPred).text

theorem processExample_nonV2 (cfg : Config) (features : List Feature)
    (sL eL : List (List ℤ)) (contextList : List String) (nsVar : Option ℤ)
    (examples : List Example) (i : Nat)
    (hv : cfg.version_2_with_negative = false)
    (hrel : (examples.getD i defaultExample).relevant < contextList.length) :
    processExample cfg features sL eL contextList nsVar
        (examples.getD i defaultExample) (featureIndicesFor examples features i)
      = .ok (⟨exampleAnswerNonNull cfg features sL eL contextList examples i,
             exampleNbest cfg features sL eL contextList examples i, none⟩,
            nsVar) := by
  simp only [processExample, exampleNullVar, hv, Bool.false_eq_true, if_false,
    if_pos hrel, exampleAnswerNonNull, exampleNbest]

/-- With no feature index, the recorded candidate list is exactly the
placeholder (line 198 fires on the empty list). -/
theorem exampleNbest_nil (cfg : Config) (features : List Feature)
    (sL eL : List (List ℤ)) (contextList : List String)
    (examples : List Example) (i : Nat)
    (hfid : featureIndicesFor examples features i = []) :
    exampleNbest cfg features sL eL contextList examples i
      = [placeholderPred] := by
  unfold exampleNbest resolvedPredictions keptPredictions prelimOf minNullOf
  rw [hfid]
  simp [sortPredsDesc, theGuard]

theorem exampleAnswerNonNull_nil (cfg : Config) (features : List Feature)
    (sL eL : List (List ℤ)) (contextList : List String)
    (examples : List Example) (i : Nat)
    (hfid : featureIndicesFor examples features i = []) :
    exampleAnswerNonNull cfg features sL eL contextList examples i = "empty" := by
  unfold exampleAnswerNonNull
  rw [exampleNbest_nil cfg features sL eL contextList examples i hfid]
  rfl

/-- Inserting a fresh key into an insertion-ordered dict appends. -/
theorem dictInsert_fresh {α : Type} (d : List (String × α)) (k : String)
    (v : α) (h : ∀ p ∈ d, p.1 ≠ k) :
    dictInsert d k v = d ++ [(k, v)] := by
  unfold dictInsert
  rw [if_neg]
  intro hany
  obtain ⟨p, hp, hbeq⟩ := List.any_eq_true.mp hany
  exact h p hp (by simpa using hbeq)

theorem map_getD_range {α β : Type} (l : List α) (d : α) (f : α → β) :
    (List.range l.length).map (fun i => f (l.getD i d)) = l.map f := by
  refine List.ext_getElem (by simp) ?_
  intro i h1 h2
  have hi : i < l.length := by simpa using h2
  simp [List.getElem_map, List.getElem_range, List.getD, List.getElem?_eq_getElem hi]

theorem ids_getD_ne (examples : List Example)
    (hnodup : (examples.map Example.id).Nodup)
    (i n : Nat) (hilt : i < n) (hn : n < examples.length) :
    (examples.getD i defaultExample).id ≠ (examples.getD n defaultExample).id := by
  intro heq
  have hi : i < examples.length := Nat.lt_trans hilt hn
  rw [List.getD_eq_getElem examples defaultExample hi,
    List.getD_eq_getElem examples defaultExample hn] at heq
  have hmi : i < (examples.map Example.id).length := by simpa using hi
  have hmn : n < (examples.map Example.id).length := by simpa using hn
  have : (examples.map Example.id)[i] = (examples.map Example.id)[n] := by
    simpa using heq
  have := (List.Nodup.getElem_inj_iff hnodup).mp this
  omega

/-- In null-answer-mode-off runs every example step succeeds (given an
in-range context index) and the loop builds the three dicts explicitly:
one answer and one n-best entry per example, in input order, and no
score-difference entries. -/
theorem qaFold_nonV2 (cfg : Config) (features : List Feature)
    (sL eL : List (List ℤ)) (contextList : List String)
    (examples : List Example)
    (hv : cfg.version_2_with_negative = false)
    (hrel : ∀ ex ∈ examples, ex.relevant < contextList.length)
    (hnodup : (examples.map Example.id).Nodup) :
    ∀ n, n ≤ examples.length →
      (List.range n).foldlM (qaStep cfg features sL eL contextList examples)
          initialState
        = .ok ⟨(List.range n).map (fun i => ((examples.getD i defaultExample).id,
                exampleAnswerNonNull cfg features sL eL contextList examples i)),
              (List.range n).map (fun i => ((examples.getD i defaultExample).id,
                exampleNbest cfg features sL eL contextList examples i)),
              [], none⟩ := by
  intro n
  induction n with
  | zero => intro _; rfl
  | succ n ih =>
    intro hn
    have hn2 : n ≤ examples.length := Nat.le_of_succ_le hn
    have hnlt : n < examples.length := hn
    have hmem : examples.getD n defaultExample ∈ examples := by
      rw [List.getD_eq_getElem examples defaultExample hnlt]
      exact List.getElem_mem hnlt
    have hreln := hrel _ hmem
    have hfresh1 : ∀ p ∈ (List.range n).map
        (fun i => ((examples.getD i defaultExample).id,
          exampleAnswerNonNull cfg features sL eL contextList examples i)),
        p.1 ≠ (examples.getD n defaultExample).id := by
      intro p hp
      obtain ⟨i, hi, rfl⟩ := List.mem_map.mp hp
      exact ids_getD_ne examples hnodup i n (List.mem_range.mp hi) hnlt
    have hfresh2 : ∀ p ∈ (List.range n).map
        (fun i => ((examples.getD i defaultExample).id,
          exampleNbest cfg features sL eL contextList examples i)),
        p.1 ≠ (examples.getD n defaultExample).id := by
      intro p hp
      obtain ⟨i, hi, rfl⟩ := List.mem_map.mp hp
      exact ids_getD_ne examples hnodup i n (List.mem_range.mp hi) hnlt
    rw [List.range_succ, List.foldlM_append, ih hn2]
    simp only [Bind.bind, Except.bind]
    rw [List.foldlM_cons]
    simp only [qaStep]
    rw [processExample_nonV2 cfg features sL eL contextList none examples n hv hreln]
    simp only [Bind.bind, Except.bind, List.foldlM_nil, pure, Except.pure,
      Except.ok.injEq]
    rw [dictInsert_fresh _ _ _ hfresh1, dictInsert_fresh _ _ _ hfresh2]
    simp [List.map_append]

theorem processExample_scoreDiff_nonV2 (cfg : Config) (features : List Feature)
    (sL eL : List (List ℤ)) (contextList : List String) (nsVar : Option ℤ)
    (ex : Example) (fidx : List Nat) (out : ExampleOut) (ns : Option ℤ)
    (hv : cfg.version_2_with_negative = false)
    (hok : processExample cfg features sL eL contextList nsVar ex fidx
      = .ok (out, ns)) :
    out.scoreDiff = none := by
  simp only [processExample, hv, Bool.false_eq_true, if_false] at hok
  by_cases hrel : ex.relevant < contextList.length
  · rw [if_pos hrel] at hok
    simp only [Except.ok.injEq, Prod.mk.injEq] at hok
    rw [← hok.1]
  · rw [if_neg hrel] at hok
    exact absurd hok (by simp)

theorem processExample_scoreDiff_v2 (cfg : Config) (features : List Feature)
    (sL eL : List (List ℤ)) (contextList : List String) (nsVar : Option ℤ)
    (ex : Example) (fidx : List Nat) (out : ExampleOut) (ns : Option ℤ)
    (hv : cfg.version_2_with_negative = true)
    (hok : processExample cfg features sL eL contextList nsVar ex fidx
      = .ok (out, ns)) :
    ∃ d, out.scoreDiff = some d := by
  simp only [processExample, hv, if_true] at hok
  by_cases hrel : ex.relevant < contextList.length
  · rw [if_pos hrel] at hok
    cases hscan : scanFirstNonEmpty (resolvedPredictions cfg features sL eL fidx
        (contextList.getD ex.relevant "")) with
    | none =>
      rw [hscan] at hok
      exact absurd hok (by simp)
    | some i =>
      rw [hscan] at hok
      cases hns : exampleNullVar cfg nsVar (minNullOf sL eL fidx) with
      | none =>
        rw [hns] at hok
        exact absurd hok (by simp)
      | some nv =>
        rw [hns] at hok
        simp only [Except.ok.injEq, Prod.mk.injEq] at hok
        exact ⟨_, by rw [← hok.1]⟩
  · rw [if_neg hrel] at hok
    exact absurd hok (by simp)

/-- Whatever mode, a successful run of the first `n` example iterations
keys each of the three dicts by the processed example ids in input
order (the score-difference dict only in null-answer mode, where it is
empty otherwise). -/
theorem qaFold_keys (cfg : Config) (features : List Feature)
    (sL eL : List (List ℤ)) (contextList : List String)
    (examples : List Example)
    (hnodup : (examples.map Example.id).Nodup) :
    ∀ n, n ≤ examples.length → ∀ st,
      (List.range n).foldlM (qaStep cfg features sL eL contextList examples)
          initialState = .ok st →
      st.all_predictions.map Prod.fst
          = (List.range n).map (fun i => (examples.getD i defaultExample).id) ∧
      st.all_nbest.map Prod.fst
          = (List.range n).map (fun i => (examples.getD i defaultExample).id) ∧
      (cfg.version_2_with_negative = false → st.scores_diff = []) ∧
      (cfg.version_2_with_negative = true → st.scores_diff.map Prod.fst
          = (List.range n).map (fun i => (examples.getD i defaultExample).id)) := by
  intro n
  induction n with
  | zero =>
    intro _ st h
    have hst : initialState = st := by
      simpa [List.foldlM, pure, Except.pure] using h
    rw [← hst]
    simp [initialState]
  | succ n ih =>
    intro hn st h
    have hn2 : n ≤ examples.length := Nat.le_of_succ_le hn
    have hnlt : n < examples.length := hn
    rw [List.range_succ, List.foldlM_append] at h
    cases hfold : (List.range n).foldlM
        (qaStep cfg features sL eL contextList examples) initialState with
    | error e =>
      rw [hfold] at h
      exact absurd h (by simp [Bind.bind, Except.bind])
    | ok st1 =>
      rw [hfold] at h
      simp only [Bind.bind, Except.bind] at h
      rw [List.foldlM_cons] at h
      cases hstep : qaStep cfg features sL eL contextList examples st1 n with
      | error e =>
        rw [hstep] at h
        exact absurd h (by simp [Bind.bind, Except.bind])
      | ok st2 =>
        rw [hstep] at h
        simp only [Bind.bind, Except.bind, List.foldlM_nil, pure, Except.pure,
          Except.ok.injEq] at h
        obtain ⟨hA, hB, hC0, hC1⟩ := ih hn2 st1 hfold
        have hfreshA : ∀ p ∈ st1.all_predictions,
            p.1 ≠ (examples.getD n defaultExample).id := by
          intro p hp
          have : p.1 ∈ st1.all_predictions.map Prod.fst := List.mem_map_of_mem _ hp
          rw [hA] at this
          obtain ⟨i, hi, hieq⟩ := List.mem_map.mp this
          rw [← hieq]
          exact ids_getD_ne examples hnodup i n (List.mem_range.mp hi) hnlt
        have hfreshB : ∀ p ∈ st1.all_nbest,
            p.1 ≠ (examples.getD n defaultExample).id := by
          intro p hp
          have : p.1 ∈ st1.all_nbest.map Prod.fst := List.mem_map_of_mem _ hp
          rw [hB] at this
          obtain ⟨i, hi, hieq⟩ := List.mem_map.mp this
          rw [← hieq]
          exact ids_getD_ne examples hnodup i n (List.mem_range.mp hi) hnlt
        simp only [qaStep] at hstep
        cases hpe : processExample cfg features sL eL contextList st1.nullVar
            (examples.getD n defaultExample)
            (featureIndicesFor examples features n) with
        | error e =>
          rw [hpe] at hstep
          exact absurd hstep (by simp)
        | ok pr =>
          obtain ⟨out, ns⟩ := pr
          rw [hpe] at hstep
          simp only [Except.ok.injEq] at hstep
          rw [← h, ← hstep]
          refine ⟨?_, ?_, ?_, ?_⟩
          · show (dictInsert st1.all_predictions
                (examples.getD n defaultExample).id out.answer).map Prod.fst = _
            rw [dictInsert_fresh _ _ _ hfreshA, List.map_append, hA,
              List.range_succ, List.map_append]
            rfl
          · show (dictInsert st1.all_nbest
                (examples.getD n defaultExample).id out.nbest).map Prod.fst = _
            rw [dictInsert_fresh _ _ _ hfreshB, List.map_append, hB,
              List.range_succ, List.map_append]
            rfl
          · intro hv
            have hsd := processExample_scoreDiff_nonV2 cfg features sL eL
              contextList st1.nullVar (examples.getD n defaultExample)
              (featureIndicesFor examples features n) out ns hv hpe
            show (match out.scoreDiff with
              | some d => dictInsert st1.scores_diff
                  (examples.getD n defaultExample).id d
              | none => st1.scores_diff) = []
            rw [hsd]
            exact hC0 hv
          · intro hv
            obtain ⟨d, hsd⟩ := processExample_scoreDiff_v2 cfg features sL eL
              contextList st1.nullVar (examples.getD n defaultExample)
              (featureIndicesFor examples features n) out ns hv hpe
            have hfreshC : ∀ p ∈ st1.scores_diff,
                p.1 ≠ (examples.getD n defaultExample).id := by
              intro p hp
              have : p.1 ∈ st1.scores_diff.map Prod.fst :=
                List.mem_map_of_mem _ hp
              rw [hC1 hv] at this
              obtain ⟨i, hi, hieq⟩ := List.mem_map.mp this
              rw [← hieq]
              exact ids_getD_ne examples hnodup i n (List.mem_range.mp hi) hnlt
            show (match out.scoreDiff with
              | some d => dictInsert st1.scores_diff
                  (examples.getD n defaultExample).id d
              | none => st1.scores_diff).map Prod.fst = _
            rw [hsd]
            dsimp only
            rw [dictInsert_fresh _ _ _ hfreshC, List.map_append, hC1 hv,
              List.range_succ, List.map_append]
            rfl

/-- C10, amended: for every call with null-answer mode disabled whose
examples carry pairwise-distinct ids, whose features all reference
known example ids, and whose examples all carry an in-range context
index, the returned answer mapping contains exactly one entry per
example, keyed by that example id, in input order — including examples
owning zero features, which receive the placeholder answer "empty"
rather than being skipped.  (The counterexample shows the claim fails
in null-answer mode, where a zero-feature first example aborts the call
on the unassigned `null_score` local.) -/
theorem c10_answer_mapping_order (examples : List Example)
    (features : List Feature) (contextList : List String)
    (s e : List (List ℤ)) (cfg : Config)
    (hv : cfg.version_2_with_negative = false)
    (hs : s.length = features.length)
    (hids : features.any
      (fun f => (exampleIdIndex examples f.example_id).isNone) = false)
    (hrel : ∀ ex ∈ examples, ex.relevant < contextList.length)
    (hnodup : (examples.map Example.id).Nodup) :
    ∃ st, runQA examples features contextList [s, e] cfg = .ok st ∧
      postprocess_qa_predictions examples features contextList [s, e] cfg
        = .ok st.all_predictions ∧
      st.all_predictions.map Prod.fst = examples.map Example.id ∧
      ∀ i, i < examples.length → featureIndicesFor examples features i = [] →
        st.all_predictions.getD i ("", "")
          = ((examples.getD i defaultExample).id, "empty") := by
  have hgd : ([s, e].getD 0 []).length = features.length := by simpa using hs
  have hfold := qaFold_nonV2 cfg features s e contextList examples hv hrel
    hnodup examples.length (le_refl _)
  have hrun : runQA examples features contextList [s, e] cfg
      = .ok ⟨(List.range examples.length).map
              (fun i => ((examples.getD i defaultExample).id,
                exampleAnswerNonNull cfg features s e contextList examples i)),
            (List.range examples.length).map
              (fun i => ((examples.getD i defaultExample).id,
                exampleNbest cfg features s e contextList examples i)),
            [], none⟩ := by
    simp only [runQA]
    rw [if_neg (fun hx => hx rfl), if_neg (fun hx => hx hgd)]
    rw [if_neg (fun hx => by rw [hids] at hx; exact absurd hx (by simp))]
    exact hfold
  refine ⟨_, hrun, ?_, ?_, ?_⟩
  · unfold postprocess_qa_predictions
    rw [hrun]
    rfl
  · show ((List.range examples.length).map
        (fun i => ((examples.getD i defaultExample).id,
          exampleAnswerNonNull cfg features s e contextList examples i))).map
        Prod.fst = examples.map Example.id
    rw [List.map_map]
    exact map_getD_range examples defaultExample Example.id
  · intro i hi hfid
    show ((List.range examples.length).map
        (fun i => ((examples.getD i defaultExample).id,
          exampleAnswerNonNull cfg features s e contextList examples i))).getD
        i ("", "")
      = ((examples.getD i defaultExample).id, "empty")
    have hlen : i < ((List.range examples.length).map
        (fun i => ((examples.getD i defaultExample).id,
          exampleAnswerNonNull cfg features s e contextList examples i))).length := by
      simpa using hi
    rw [List.getD_eq_getElem _ _ hlen]
    simp only [List.getElem_map, List.getElem_range]
    rw [exampleAnswerNonNull_nil cfg features s e contextList examples i hfid]

def exC10w : List Example := [⟨"e1", 0⟩, ⟨"e2", 0⟩]

def featC10w : List Feature := [⟨"e1", [some (0, 3)], none⟩]

/-- Witness for C10: two examples, the second owning zero features,
null-answer mode off. -/
theorem c10_witness :
    ∃ st, runQA exC10w featC10w ["abc"] [[[2]], [[3]]]
        (Config.mk false 20 30 0) = .ok st ∧
      postprocess_qa_predictions exC10w featC10w ["abc"] [[[2]], [[3]]]
          (Config.mk false 20 30 0) = .ok st.all_predictions ∧
      st.all_predictions.map Prod.fst = exC10w.map Example.id ∧
      ∀ i, i < exC10w.length → featureIndicesFor exC10w featC10w i = [] →
        st.all_predictions.getD i ("", "")
          = ((exC10w.getD i defaultExample).id, "empty") :=
  c10_answer_mapping_order exC10w featC10w ["abc"] [[2]] [[3]]
    (Config.mk false 20 30 0) rfl (by decide) (by decide) (by decide) (by decide)

/-- C1, amended: the resolver computes three result structures — the
answer mapping, the n-best mapping, and (exactly in null-answer mode) a
score-difference mapping with one entry per example — but its return
value is only the answer mapping; for any successful call with
pairwise-distinct example ids, the n-best dict is keyed by all example
ids in input order, the score-difference dict is empty when null-answer
mode is off and keyed by all example ids when it is on. -/
theorem c1_return_and_computed_maps (examples : List Example)
    (features : List Feature) (contextList : List String)
    (predictions : List (List (List ℤ))) (cfg : Config) (st : QAState)
    (hnodup : (examples.map Example.id).Nodup)
    (hok : runQA examples features contextList predictions cfg = .ok st) :
    postprocess_qa_predictions examples features contextList predictions cfg
      = .ok st.all_predictions ∧
    st.all_nbest.map Prod.fst = examples.map Example.id ∧
    (cfg.version_2_with_negative = false → st.scores_diff = []) ∧
    (cfg.version_2_with_negative = true →
      st.scores_diff.map Prod.fst = examples.map Example.id) := by
  have hpost : postprocess_qa_predictions examples features contextList
      predictions cfg = .ok st.all_predictions := by
    unfold postprocess_qa_predictions
    rw [hok]
    rfl
  simp only [runQA] at hok
  by_cases h2 : predictions.length ≠ 2
  · rw [if_pos h2] at hok
    exact absurd hok (by simp)
  · rw [if_neg h2] at hok
    by_cases hsne : (predictions.getD 0 []).length ≠ features.length
    · rw [if_pos hsne] at hok
      exact absurd hok (by simp)
    · rw [if_neg hsne] at hok
      by_cases hany : features.any
          (fun f => (exampleIdIndex examples f.example_id).isNone) = true
      · simp only [hany, if_true] at hok
        exact absurd hok (by simp)
      · rw [if_neg hany] at hok
        obtain ⟨KA, KB, KC0, KC1⟩ := qaFold_keys cfg features
          (predictions.getD 0 []) (predictions.getD 1 []) contextList examples
          hnodup examples.length (le_refl _) st hok
        refine ⟨hpost, ?_, KC0, ?_⟩
        · rw [KB]
          exact map_getD_range examples defaultExample Example.id
        · intro hv
          rw [KC1 hv]
          exact map_getD_range examples defaultExample Example.id

def stC1 : QAState :=
  ⟨[("e1", "")], [("e1", [⟨"", 5, 5, 10⟩, ⟨"hello", 1, 2, 3⟩])],
    [("e1", 7)], some 10⟩

/-- Witness for C1 at a concrete null-answer-mode run. -/
theorem c1_witness :
    postprocess_qa_predictions exC1 featC1 ["hello"] predsC1 cfgV2
      = .ok stC1.all_predictions ∧
    stC1.all_nbest.map Prod.fst = exC1.map Example.id ∧
    (cfgV2.version_2_with_negative = false → stC1.scores_diff = []) ∧
    (cfgV2.version_2_with_negative = true →
      stC1.scores_diff.map Prod.fst = exC1.map Example.id) :=
  c1_return_and_computed_maps exC1 featC1 ["hello"] predsC1 cfgV2 stC1
    (by decide) (by decide)

end QA
